import Mathlib

/-!
Shallow embedding of `src/main.py`, a command-line contact manager
(address book with phones and birthdays).  Python `datetime.date` values
are modelled by a `Date` structure with explicit proleptic-Gregorian
calendar arithmetic; Python exceptions are modelled by `PyErr` returned
through `Except` (for computations whose result is consumed) or as an
`Option PyErr × σ` pair (for in-place mutations, so that the state after
a raised exception is visible).
-/

namespace AddressBookPy

/-! ## Calendar model (Python `datetime.date`) -/

/-- Gregorian leap-year test, as used by `datetime`. -/
def isLeap (y : Nat) : Bool :=
  (y % 4 == 0 && y % 100 != 0) || y % 400 == 0

/-- Number of days in month `m` of year `y` (months `1..12`). -/
def daysInMonth (y m : Nat) : Nat :=
  if m = 2 then (if isLeap y then 29 else 28)
  else if m = 4 ∨ m = 6 ∨ m = 9 ∨ m = 11 then 30
  else 31

/-- A calendar date; mirrors Python `datetime.date` fields. -/
structure Date where
  year : Nat
  month : Nat
  day : Nat
deriving DecidableEq, Repr

/-- Validity of a `Date`, i.e. the invariant `datetime.date` enforces at
construction (`MINYEAR = 1`, `MAXYEAR = 9999`). -/
def Date.valid (t : Date) : Prop :=
  1 ≤ t.year ∧ t.year ≤ 9999 ∧ 1 ≤ t.month ∧ t.month ≤ 12 ∧
    1 ≤ t.day ∧ t.day ≤ daysInMonth t.year t.month

instance (t : Date) : Decidable t.valid := by
  unfold Date.valid; infer_instance

/-- Days in all years before year `y` (`_days_before_year` in CPython). -/
def daysBeforeYear (y : Nat) : Nat :=
  365 * (y - 1) + (y - 1) / 4 - (y - 1) / 100 + (y - 1) / 400

/-- Cumulative day count before month `m` in a non-leap year
(`_DAYS_BEFORE_MONTH` in CPython). -/
def monthOffset (m : Nat) : Nat :=
  match m with
  | 1 => 0 | 2 => 31 | 3 => 59 | 4 => 90 | 5 => 120 | 6 => 151
  | 7 => 181 | 8 => 212 | 9 => 243 | 10 => 273 | 11 => 304 | 12 => 334
  | _ => 0

/-- Days in year `y` before month `m` (`_days_before_month`). -/
def daysBeforeMonth (y m : Nat) : Nat :=
  monthOffset m + (if 2 < m ∧ isLeap y then 1 else 0)

/-- Proleptic Gregorian ordinal of a date; `date.toordinal()` in Python
(`0001-01-01` has ordinal 1). -/
def Date.toOrdinal (t : Date) : Nat :=
  daysBeforeYear t.year + daysBeforeMonth t.year t.month + t.day

/-- `date.weekday()`: Monday = 0, ..., Sunday = 6. -/
def Date.weekday (t : Date) : Nat :=
  (t.toOrdinal + 6) % 7

/-- Python `date` comparison `a < b` (lexicographic on year, month, day). -/
def dateLt (a b : Date) : Bool :=
  a.year < b.year ∨ (a.year = b.year ∧
    (a.month < b.month ∨ (a.month = b.month ∧ a.day < b.day)))

/-- `(a - b).days` for two dates: difference of ordinals, in `Int`. -/
def diffDays (a b : Date) : Int :=
  (a.toOrdinal : Int) - (b.toOrdinal : Int)

/-- The calendar successor of a date (day after, with month/year rollover). -/
def nextDay (t : Date) : Date :=
  if t.day < daysInMonth t.year t.month then ⟨t.year, t.month, t.day + 1⟩
  else if t.month < 12 then ⟨t.year, t.month + 1, 1⟩
  else ⟨t.year + 1, 1, 1⟩

/-- `t + timedelta(days = n)`: `n`-fold calendar successor. -/
def addDays : Nat → Date → Date
  | 0, t => t
  | n + 1, t => nextDay (addDays n t)

/-! ## Python exceptions -/

/-- The exception classes the program raises or catches, with their
messages. -/
inductive PyErr where
  | valueError (msg : String)
  | keyError (msg : String)
deriving DecidableEq, Repr

/-- The message carried by an exception (`str(e)` in the handlers). -/
def PyErr.msg : PyErr → String
  | .valueError m => m
  | .keyError m => m

/-- The `datetime.date` constructor: checks field ranges and raises
`ValueError` as CPython does. -/
def mkDate (y m d : Nat) : Except PyErr Date :=
  if ¬ (1 ≤ y ∧ y ≤ 9999) then .error (.valueError "year is out of range")
  else if ¬ (1 ≤ m ∧ m ≤ 12) then .error (.valueError "month must be in 1..12")
  else if ¬ (1 ≤ d ∧ d ≤ daysInMonth y m) then
    .error (.valueError "day is out of range for month")
  else .ok ⟨y, m, d⟩

/-- `date.replace(year = y)`: reconstructs the date with a new year,
revalidating (raises for Feb 29 in a non-leap target year). -/
def Date.replaceYear (t : Date) (y : Nat) : Except PyErr Date :=
  mkDate y t.month t.day

/-! ## Date formatting (`strftime("%d.%m.%Y")`) -/

/-- Two zero-padded decimal digits. -/
def twoDigits (n : Nat) : List Char :=
  [Nat.digitChar (n / 10), Nat.digitChar (n % 10)]

/-- Four zero-padded decimal digits. -/
def fourDigits (n : Nat) : List Char :=
  [Nat.digitChar (n / 1000), Nat.digitChar (n / 100 % 10),
   Nat.digitChar (n / 10 % 10), Nat.digitChar (n % 10)]

/-- `strftime("%d.%m.%Y")` on a date. -/
def fmtDate (t : Date) : String :=
  String.mk (twoDigits t.day ++ '.' :: twoDigits t.month ++ '.' :: fourDigits t.year)

/-! ## `datetime.strptime(s, "%d.%m.%Y")`

CPython's `_strptime` compiles the format to a regex and requires it to
consume the whole input.  The sub-patterns are
`%d ↦ 3[01]|[12]\d|0[1-9]|[1-9]`, `%m ↦ 1[0-2]|0[1-9]|[1-9]`,
`%Y ↦ \d\d\d\d`, with `.` matched literally; the parsed fields are then
passed to the `datetime` constructor, which revalidates the day against
the month.  The alternations are deterministic here (a two-character
branch and the one-character fallback are distinguished by whether the
second character is a digit or the literal `.`), so they are embedded as
a first-match functional parser. -/

/-- Numeric value of a decimal digit character. -/
def digitVal (c : Char) : Nat := c.toNat - '0'.toNat

/-- The `%d` sub-pattern `3[01]|[12]\d|0[1-9]|[1-9]` applied at the head
of the input; returns the parsed day and the rest. -/
def parseDay : List Char → Option (Nat × List Char)
  | c1 :: c2 :: rest =>
    if c1 = '3' ∧ (c2 = '0' ∨ c2 = '1') then
      some (10 * digitVal c1 + digitVal c2, rest)
    else if (c1 = '1' ∨ c1 = '2') ∧ c2.isDigit then
      some (10 * digitVal c1 + digitVal c2, rest)
    else if c1 = '0' ∧ c2.isDigit ∧ c2 ≠ '0' then
      some (digitVal c2, rest)
    else if c1.isDigit ∧ c1 ≠ '0' then some (digitVal c1, c2 :: rest)
    else none
  | [c1] => if c1.isDigit ∧ c1 ≠ '0' then some (digitVal c1, []) else none
  | [] => none

/-- The `%m` sub-pattern `1[0-2]|0[1-9]|[1-9]`. -/
def parseMonth : List Char → Option (Nat × List Char)
  | c1 :: c2 :: rest =>
    if c1 = '1' ∧ (c2 = '0' ∨ c2 = '1' ∨ c2 = '2') then
      some (10 + digitVal c2, rest)
    else if c1 = '0' ∧ c2.isDigit ∧ c2 ≠ '0' then
      some (digitVal c2, rest)
    else if c1.isDigit ∧ c1 ≠ '0' then some (digitVal c1, c2 :: rest)
    else none
  | [c1] => if c1.isDigit ∧ c1 ≠ '0' then some (digitVal c1, []) else none
  | [] => none

/-- The `%Y` sub-pattern `\d\d\d\d`. -/
def parseYear : List Char → Option (Nat × List Char)
  | c1 :: c2 :: c3 :: c4 :: rest =>
    if c1.isDigit ∧ c2.isDigit ∧ c3.isDigit ∧ c4.isDigit then
      some (1000 * digitVal c1 + 100 * digitVal c2 + 10 * digitVal c3 +
        digitVal c4, rest)
    else none
  | _ => none

/-- The literal `.` of the format. -/
def parseDot : List Char → Option (List Char)
  | '.' :: rest => some rest
  | _ => none

/-- The full `%d.%m.%Y` regex match over the whole string, yielding
`(day, month, year)`. -/
def parseDMY (cs : List Char) : Option (Nat × Nat × Nat) :=
  (parseDay cs).bind fun dp =>
  (parseDot dp.2).bind fun r2 =>
  (parseMonth r2).bind fun mp =>
  (parseDot mp.2).bind fun r4 =>
  (parseYear r4).bind fun yp =>
  if yp.2 = [] then some (dp.1, mp.1, yp.1) else none

/-- `datetime.strptime(s, "%d.%m.%Y").date()`: regex match, then the
`datetime` constructor's range checks. -/
def strptimeDMY (s : String) : Option Date :=
  (parseDMY s.data).bind fun (d, m, y) =>
    if 1 ≤ y ∧ y ≤ 9999 ∧ 1 ≤ d ∧ d ≤ daysInMonth y m then some ⟨y, m, d⟩
    else none

/-! ## Field validators (`Name`, `Phone`, `Birthday` constructors) -/

/-- Matches `n` decimal-digit characters and nothing else
(`re.fullmatch(r"\d{n}", ·)`). -/
def matchDigits : Nat → List Char → Bool
  | 0, [] => true
  | 0, _ :: _ => false
  | _ + 1, [] => false
  | n + 1, c :: cs => c.isDigit && matchDigits n cs

/-- `re.fullmatch(r"\d{10}", s)` as a Boolean. -/
def validPhoneStr (s : String) : Bool := matchDigits 10 s.data

/-- `Phone.__init__`: validates and stores the phone string. -/
def mkPhone (s : String) : Except PyErr String :=
  if validPhoneStr s then .ok s
  else .error (.valueError "The phone should contain 10 digits")

/-- `Birthday.__init__`: `strptime` with a uniform `ValueError` on any
parse failure. -/
def mkBirthday (s : String) : Except PyErr Date :=
  match strptimeDMY s with
  | some d => .ok d
  | none => .error (.valueError "Invalid date format. Use DD.MM.YYYY")

/-- `Name.__init__`: rejects the empty string. -/
def mkName (s : String) : Except PyErr String :=
  if s = "" then .error (.valueError "Name can't be empty") else .ok s

/-! ## `Record` -/

/-- A contact record: name, ordered phone list, optional birthday.
Phones are stored as their validated string values (`Phone.value`). -/
structure Record where
  name : String
  phones : List String
  birthday : Option Date
deriving DecidableEq, Repr

/-- `Record.__init__`: validates the name, starts with no phones and no
birthday. -/
def mkRecord (name : String) : Except PyErr Record :=
  (mkName name).map fun n => ⟨n, [], none⟩

/-- `Record.find_phone`: first phone whose value equals `s`. -/
def Record.findPhone (r : Record) (s : String) : Option String :=
  r.phones.find? (· = s)

/-- `Record.add_phone`: validate, then append.  The pair returns the
raised exception (if any) together with the record state afterwards. -/
def Record.addPhone (r : Record) (s : String) : Option PyErr × Record :=
  match mkPhone s with
  | .ok p => (none, { r with phones := r.phones ++ [p] })
  | .error e => (some e, r)

/-- `Record.remove_phone`: remove the first phone equal to `s`, raising
`ValueError` when absent. -/
def Record.removePhone (r : Record) (s : String) : Option PyErr × Record :=
  match r.findPhone s with
  | none => (some (.valueError "Phone not found"), r)
  | some _ => (none, { r with phones := r.phones.eraseP (· = s) })

/-- `Record.edit_phone`: find the first phone equal to `old` (raise
`ValueError` when absent), validate `new`, then overwrite the found
slot's value in place. -/
def Record.editPhone (r : Record) (old new : String) : Option PyErr × Record :=
  match r.findPhone old with
  | none => (some (.valueError "Phone not found"), r)
  | some _ =>
    match mkPhone new with
    | .error e => (some e, r)
    | .ok p =>
      (none, { r with phones := r.phones.set (r.phones.findIdx (· = old)) p })

/-- `Record.add_birthday`: validate and overwrite the birthday field. -/
def Record.addBirthday (r : Record) (s : String) : Option PyErr × Record :=
  match mkBirthday s with
  | .ok d => (none, { r with birthday := some d })
  | .error e => (some e, r)

/-! ## `AddressBook` (a `UserDict` keyed by name)

A Python `dict` preserves insertion order and has unique keys; it is
modelled as an association list in insertion order, with lookup and
update acting on the first matching key. -/

/-- The address book state: name → record, in insertion order. -/
abbrev Book := List (String × Record)

/-- `AddressBook.find` / `self.data.get(name)`. -/
def findBook : Book → String → Option Record
  | [], _ => none
  | (k, r) :: rest, n => if k = n then some r else findBook rest n

/-- `self.data[name] = record` on a dict: overwrite in place if the key
exists, otherwise append. -/
def dictSet : Book → String → Record → Book
  | [], n, r => [(n, r)]
  | (k, r0) :: rest, n, r =>
    if k = n then (k, r) :: rest else (k, r0) :: dictSet rest n r

/-- `AddressBook.add_record`: keyed by `record.name.value`. -/
def addRecord (b : Book) (r : Record) : Book :=
  dictSet b r.name r

/-- `del self.data[name]`: remove the entry with the given key. -/
def dictDel : Book → String → Book
  | [], _ => []
  | (k, r) :: rest, n => if k = n then rest else (k, r) :: dictDel rest n

/-- `AddressBook.delete`: `KeyError` when the name is absent, otherwise
remove.  Returns the raised exception (if any) and the state after. -/
def deleteRec (b : Book) (n : String) : Option PyErr × Book :=
  match findBook b n with
  | none => (some (.keyError "Record not found"), b)
  | some _ => (none, dictDel b n)

/-! ## `get_upcoming_birthdays`

The Python method reads `datetime.today()`; the clock read is the
explicit parameter `today` here.  An exception raised by
`date.replace` propagates out of the loop, discarding the partial
result, hence the `Except` result. -/

/-- The candidate congratulation base date for a stored birthday: this
year's anniversary, rolled to next year when already past. -/
def candidate (today bday : Date) : Except PyErr Date := do
  let thisYear ← bday.replaceYear today.year
  if dateLt thisYear today then thisYear.replaceYear (today.year + 1)
  else pure thisYear

/-- The 7-day inclusion window `0 <= days_diff <= 7`. -/
def windowOK (today c : Date) : Bool :=
  decide (0 ≤ diffDays c today ∧ diffDays c today ≤ 7)

/-- The weekend shift applied to an included candidate: Saturday → +2
days, Sunday → +1 day, otherwise unchanged. -/
def shiftWeekend (c : Date) : Date :=
  if c.weekday = 5 then addDays 2 c
  else if c.weekday = 6 then addDays 1 c
  else c

/-- `AddressBook.get_upcoming_birthdays`, record by record in store
order; each emitted entry is `(name, congratulation_date)` with the
date formatted `DD.MM.YYYY`. -/
def getUpcoming : Book → Date → Except PyErr (List (String × String))
  | [], _ => .ok []
  | (_, r) :: rest, today =>
    match r.birthday with
    | none => getUpcoming rest today
    | some b => do
      let c ← candidate today b
      let tail ← getUpcoming rest today
      if windowOK today c then
        pure ((r.name, fmtDate (shiftWeekend c)) :: tail)
      else pure tail

/-! ## Command handlers

Each handler is wrapped by the `input_error` decorator: `AttributeError`
becomes `"Error: Contact not found"`, and `KeyError`/`ValueError`/
`IndexError` become `"Error: " ++ str(e)`.  Handlers that mutate the
book return the state after the call together with the message. -/

/-- `input_error`'s rendering of a caught `ValueError`/`KeyError`. -/
def errLine (e : PyErr) : String := "Error: " ++ e.msg

/-- `add_contact`: find-or-create the record, then append the phone.
Note the record is inserted before the phone is validated, so an
invalid phone still leaves the (possibly empty) record in the book. -/
def addContact (args : List String) (b : Book) : Book × String :=
  match args with
  | name :: phone :: _ =>
    match findBook b name with
    | some r =>
      if phone ≠ "" then
        match r.addPhone phone with
        | (none, r2) => (dictSet b name r2, "Contact updated.")
        | (some e, _) => (b, errLine e)
      else (b, "Contact updated.")
    | none =>
      match mkRecord name with
      | .error e => (b, errLine e)
      | .ok r =>
        let b1 := addRecord b r
        if phone ≠ "" then
          match r.addPhone phone with
          | (none, r2) => (dictSet b1 name r2, "Contact added.")
          | (some e, _) => (b1, errLine e)
        else (b1, "Contact added.")
  | _ => (b, errLine (.valueError "Usage: add [name] [phone]"))

/-- `change_contact`: `record.edit_phone` on the found record; a missing
record raises `AttributeError`, reported as `"Error: Contact not
found"`. -/
def changeContact (args : List String) (b : Book) : Book × String :=
  match args with
  | name :: old :: new :: _ =>
    match findBook b name with
    | none => (b, "Error: Contact not found")
    | some r =>
      match r.editPhone old new with
      | (none, r2) => (dictSet b name r2, "Phone updated.")
      | (some e, _) => (b, errLine e)
  | _ => (b, errLine (.valueError "Usage: change [name] [old_phone] [new_phone]"))

/-- `show_phones`. -/
def showPhones (args : List String) (b : Book) : String :=
  match args with
  | name :: _ =>
    match findBook b name with
    | none => "Error: Contact not found"
    | some r =>
      if r.phones = [] then "No phones found."
      else String.intercalate "; " r.phones
  | _ => errLine (.valueError "Usage: phone [name]")

/-- The birthday column of `show_all`'s line for one record. -/
def birthdayStr (r : Record) : String :=
  match r.birthday with
  | some d => fmtDate d
  | none => "No birthday"

/-- `show_all`. -/
def showAll (b : Book) : String :=
  if b = [] then "No contacts in address book."
  else String.intercalate "\n" (b.map fun (_, r) =>
    r.name ++ ": " ++ String.intercalate "; " r.phones ++ "; Birthday: " ++
      birthdayStr r)

/-- `add_birthday` handler. -/
def addBirthdayH (args : List String) (b : Book) : Book × String :=
  match args with
  | name :: bday :: _ =>
    match findBook b name with
    | none => (b, "Error: Contact not found")
    | some r =>
      match r.addBirthday bday with
      | (none, r2) => (dictSet b name r2, "Birthday added.")
      | (some e, _) => (b, errLine e)
  | _ => (b, errLine (.valueError "Usage: add-birthday [name] [DD.MM.YYYY]"))

/-- `show_birthday` handler. -/
def showBirthdayH (args : List String) (b : Book) : String :=
  match args with
  | name :: _ =>
    match findBook b name with
    | none => "Error: Contact not found"
    | some r =>
      match r.birthday with
      | none => "No birthday set."
      | some d => fmtDate d
  | _ => errLine (.valueError "Usage: show-birthday [name]")

/-- `birthdays` handler. -/
def birthdaysH (b : Book) (today : Date) : String :=
  match getUpcoming b today with
  | .error e => errLine e
  | .ok [] => "No birthdays in the next 7 days."
  | .ok l =>
    String.intercalate "\n" (l.map fun (n, d) => n ++ ": " ++ d)

/-! ## `parse_input` and the main-loop dispatch -/

/-- `str.split()`: split on runs of whitespace, no empty tokens.  The
accumulator holds the current token's characters in reverse. -/
def pySplitAux : List Char → List Char → List String
  | [], [] => []
  | [], tok => [String.mk tok.reverse]
  | c :: cs, tok =>
    if c.isWhitespace then
      match tok with
      | [] => pySplitAux cs []
      | _ => String.mk tok.reverse :: pySplitAux cs []
    else pySplitAux cs (c :: tok)

/-- `user_input.split()`. -/
def pySplit (s : String) : List String := pySplitAux s.data []

/-- What `parse_input` returns: either the `(command, args)` tuple, or —
because of the `input_error` decorator — the error string produced when
unpacking an empty token list raises `ValueError`. -/
inductive ParseResult where
  | ok (cmd : String) (args : List String)
  | errstr (s : String)
deriving DecidableEq, Repr

/-- The `ValueError` message of `cmd, *args = []` in CPython. -/
def unpackErrMsg : String :=
  "not enough values to unpack (expected at least 1, got 0)"

/-- `parse_input` under its `input_error` decorator. -/
def parseInput (s : String) : ParseResult :=
  match pySplit s with
  | [] => .errstr ("Error: " ++ unpackErrMsg)
  | cmd :: args => .ok cmd.toLower args

/-- `command, *args = parse_input(user_input)` in `main`: a tuple
unpacks directly; a string unpacks into its characters (`none` models
the uncaught `ValueError` on an empty string). -/
def unpackParse : ParseResult → Option (String × List String)
  | .ok cmd args => some (cmd, args)
  | .errstr e =>
    match e.data with
    | [] => none
    | c :: cs => some (String.mk [c], cs.map fun x => String.mk [x])

/-- One iteration of `main`'s loop on one input line: the dispatch
`match` over the command, returning the state after and the printed
line (`none` models an uncaught exception). -/
def mainStep (input : String) (b : Book) (today : Date) :
    Option (Book × String) :=
  (unpackParse (parseInput input)).map fun (command, args) =>
    if command = "close" ∨ command = "exit" then (b, "Good bye!")
    else if command = "hello" then (b, "How can I help you?")
    else if command = "add" then addContact args b
    else if command = "change" then changeContact args b
    else if command = "phone" then (b, showPhones args b)
    else if command = "all" then (b, showAll b)
    else if command = "add-birthday" then addBirthdayH args b
    else if command = "show-birthday" then (b, showBirthdayH args b)
    else if command = "birthdays" then (b, birthdaysH b today)
    else (b, "Invalid command.")

/-! ## Specification-side definitions

These restate properties from the natural-language specification, to be
compared against the embedded implementation. -/

/-- The spec's description of `upcoming_birthdays`: for every record
with a set birthday whose candidate date exists, include it exactly
when `0 ≤ candidate - today ≤ 7` (in whole days), in store order,
emitting the weekend-shifted candidate formatted `DD.MM.YYYY`. -/
def upcomingSpec (b : Book) (today : Date) : List (String × String) :=
  b.filterMap fun e =>
    e.2.birthday.bind fun bd =>
      (candidate today bd).toOption.bind fun c =>
        if windowOK today c then some (e.2.name, fmtDate (shiftWeekend c))
        else none

/-- Every phone stored in a record is a string of exactly 10 decimal
digits. -/
def PhonesValid (r : Record) : Prop :=
  ∀ p ∈ r.phones, validPhoneStr p = true

/-- Every record in the book satisfies `PhonesValid`. -/
def BookValid (b : Book) : Prop := ∀ e ∈ b, PhonesValid e.2

/-- Number of entries stored under a given name. -/
def countName (b : Book) (n : String) : Nat :=
  (b.filter fun e => e.1 = n).length

/-- Book states reachable from the empty store through the program's
operations: the command handlers that mutate the store, `delete`, and
the three direct phone mutations on a stored record. -/
inductive ReachableBook : Book → Prop where
  | empty : ReachableBook []
  | stepAdd (args : List String) (b : Book) :
      ReachableBook b → ReachableBook (addContact args b).1
  | stepChange (args : List String) (b : Book) :
      ReachableBook b → ReachableBook (changeContact args b).1
  | stepAddBirthday (args : List String) (b : Book) :
      ReachableBook b → ReachableBook (addBirthdayH args b).1
  | stepDelete (n : String) (b : Book) :
      ReachableBook b → ReachableBook (deleteRec b n).2
  | stepAddPhone (n s : String) (b : Book) (r : Record) :
      ReachableBook b → findBook b n = some r →
      ReachableBook (dictSet b n (r.addPhone s).2)
  | stepEditPhone (n old new : String) (b : Book) (r : Record) :
      ReachableBook b → findBook b n = some r →
      ReachableBook (dictSet b n (r.editPhone old new).2)
  | stepRemovePhone (n s : String) (b : Book) (r : Record) :
      ReachableBook b → findBook b n = some r →
      ReachableBook (dictSet b n (r.removePhone s).2)

/-! ## Helper lemmas -/

theorem matchDigits_iff (cs : List Char) (n : Nat) :
    matchDigits n cs = true ↔ cs.length = n ∧ ∀ c ∈ cs, c.isDigit = true := by
  induction cs generalizing n with
  | nil => cases n <;> simp [matchDigits]
  | cons c cs ih =>
    cases n with
    | zero => simp [matchDigits]
    | succ m =>
      simp only [matchDigits, Bool.and_eq_true, ih, List.length_cons,
        List.mem_cons]
      constructor
      · rintro ⟨hc, hlen, hall⟩
        exact ⟨by omega, fun x hx => by rcases hx with rfl | hx
                                        · exact hc
                                        · exact hall x hx⟩
      · rintro ⟨hlen, hall⟩
        exact ⟨hall c (Or.inl rfl), by omega, fun x hx => hall x (Or.inr hx)⟩

theorem string_length_eq_data (s : String) : s.length = s.data.length := rfl

theorem pySplitAux_all_ws (cs : List Char)
    (h : ∀ c ∈ cs, c.isWhitespace = true) : pySplitAux cs [] = [] := by
  induction cs with
  | nil => rfl
  | cons c cs ih =>
    simp only [pySplitAux, h c (List.mem_cons_self c cs), if_true]
    exact ih fun x hx => h x (List.mem_cons_of_mem c hx)

theorem isLeap_iff (y : Nat) :
    isLeap y = true ↔ (y % 4 = 0 ∧ y % 100 ≠ 0) ∨ y % 400 = 0 := by
  unfold isLeap
  simp [Bool.or_eq_true, Bool.and_eq_true, beq_iff_eq, bne_iff_ne]

set_option maxHeartbeats 1000000 in
theorem daysBeforeYear_succ (y : Nat) (hy : 1 ≤ y) :
    daysBeforeYear (y + 1)
      = daysBeforeYear y + (if isLeap y then 366 else 365) := by
  by_cases h : isLeap y = true
  · rw [if_pos h]
    rw [isLeap_iff] at h
    unfold daysBeforeYear
    simp only [Nat.add_sub_cancel]
    omega
  · rw [if_neg h]
    rw [isLeap_iff] at h
    push_neg at h
    unfold daysBeforeYear
    simp only [Nat.add_sub_cancel]
    omega

theorem daysBeforeMonth_succ (y m : Nat) (h1 : 1 ≤ m) (h2 : m ≤ 11) :
    daysBeforeMonth y (m + 1) = daysBeforeMonth y m + daysInMonth y m := by
  interval_cases m <;> by_cases h : isLeap y = true <;>
    simp [daysBeforeMonth, monthOffset, daysInMonth, h]

theorem toOrdinal_nextDay (t : Date) (h1 : 1 ≤ t.year) (h3 : 1 ≤ t.month)
    (h4 : t.month ≤ 12) (h6 : t.day ≤ daysInMonth t.year t.month) :
    (nextDay t).toOrdinal = t.toOrdinal + 1 := by
  unfold nextDay
  split
  · simp only [Date.toOrdinal]
    omega
  · split
    · next hlt hm =>
      have hd : t.day = daysInMonth t.year t.month := by omega
      simp only [Date.toOrdinal, daysBeforeMonth_succ t.year t.month h3 (by omega)]
      omega
    · next hlt hm =>
      have hm12 : t.month = 12 := by omega
      have hd : t.day = 31 := by
        rw [hm12] at h6 hlt
        simp [daysInMonth] at h6 hlt
        omega
      simp only [Date.toOrdinal, daysBeforeYear_succ t.year h1, hm12, hd,
        daysBeforeMonth, monthOffset]
      by_cases h : isLeap t.year = true <;> simp [h]

theorem nextDay_bounds (t : Date) (h1 : 1 ≤ t.year) (h3 : 1 ≤ t.month)
    (h4 : t.month ≤ 12) (h5 : 1 ≤ t.day)
    (_h6 : t.day ≤ daysInMonth t.year t.month) :
    1 ≤ (nextDay t).year ∧ 1 ≤ (nextDay t).month ∧ (nextDay t).month ≤ 12 ∧
      1 ≤ (nextDay t).day ∧
      (nextDay t).day ≤ daysInMonth (nextDay t).year (nextDay t).month := by
  unfold nextDay
  split
  · simp only
    omega
  · split
    · simp only
      refine ⟨h1, by omega, by omega, by omega, ?_⟩
      unfold daysInMonth
      split <;> [skip; split] <;> [split; skip; skip] <;> omega
    · simp only
      refine ⟨by omega, by omega, by omega, by omega, ?_⟩
      unfold daysInMonth
      norm_num

theorem digitVal_digitChar (k : Nat) (h : k < 10) :
    digitVal (Nat.digitChar k) = k := by
  interval_cases k <;> rfl

theorem isDigit_digitChar (k : Nat) (h : k < 10) :
    (Nat.digitChar k).isDigit = true := by
  interval_cases k <;> rfl

theorem daysInMonth_le (y m : Nat) : daysInMonth y m ≤ 31 := by
  unfold daysInMonth
  split
  · split <;> omega
  · split <;> omega

theorem parseDay_twoDigits (d : Nat) (h1 : 1 ≤ d) (h2 : d ≤ 31)
    (rest : List Char) : parseDay (twoDigits d ++ rest) = some (d, rest) := by
  interval_cases d <;> rfl

theorem parseMonth_twoDigits (m : Nat) (h1 : 1 ≤ m) (h2 : m ≤ 12)
    (rest : List Char) : parseMonth (twoDigits m ++ rest) = some (m, rest) := by
  interval_cases m <;> rfl

theorem parseYear_fourDigits (y : Nat) (h : y ≤ 9999) (rest : List Char) :
    parseYear (fourDigits y ++ rest) = some (y, rest) := by
  have h1 : y / 1000 < 10 := by omega
  have h2 : y / 100 % 10 < 10 := Nat.mod_lt _ (by norm_num)
  have h3 : y / 10 % 10 < 10 := Nat.mod_lt _ (by norm_num)
  have h4 : y % 10 < 10 := Nat.mod_lt _ (by norm_num)
  simp only [fourDigits, List.cons_append, List.nil_append, parseYear]
  rw [if_pos ⟨isDigit_digitChar _ h1, isDigit_digitChar _ h2,
    isDigit_digitChar _ h3, isDigit_digitChar _ h4⟩]
  rw [digitVal_digitChar _ h1, digitVal_digitChar _ h2,
    digitVal_digitChar _ h3, digitVal_digitChar _ h4]
  have : 1000 * (y / 1000) + 100 * (y / 100 % 10) + 10 * (y / 10 % 10) +
      y % 10 = y := by omega
  rw [this]

/-! ## Claims -/

/-- C1: whenever `get_upcoming_birthdays` returns a result, it contains
exactly the records with a set birthday whose candidate date satisfies
`0 ≤ candidate - today ≤ 7` in whole days, in store (insertion) order,
as described by `upcomingSpec`. -/
theorem getUpcoming_spec (b : Book) (today : Date)
    (res : List (String × String)) (h : getUpcoming b today = .ok res) :
    res = upcomingSpec b today := by
  induction b generalizing res with
  | nil =>
    simp only [getUpcoming] at h
    cases h
    rfl
  | cons e rest ih =>
    obtain ⟨k, r⟩ := e
    cases hb : r.birthday with
    | none =>
      simp only [getUpcoming, hb] at h
      simp only [upcomingSpec, List.filterMap_cons, hb, Option.none_bind]
      exact ih res h
    | some bd =>
      simp only [getUpcoming, hb] at h
      cases hc : candidate today bd with
      | error e =>
        rw [hc] at h
        exact Except.noConfusion h
      | ok c =>
        rw [hc] at h
        cases ht : getUpcoming rest today with
        | error e =>
          rw [ht] at h
          exact Except.noConfusion h
        | ok tail =>
          rw [ht] at h
          have h2 : (if windowOK today c = true
              then Except.ok ((r.name, fmtDate (shiftWeekend c)) :: tail)
              else (Except.ok tail : Except PyErr (List (String × String))))
              = Except.ok res := h
          simp only [upcomingSpec, List.filterMap_cons, hb, hc,
            Option.some_bind, Except.toOption]
          by_cases hw : windowOK today c = true
          · rw [if_pos hw] at h2
            injection h2 with h3
            subst h3
            rw [if_pos hw]
            exact congrArg _ (ih tail ht)
          · rw [if_neg hw] at h2
            injection h2 with h3
            subst h3
            rw [if_neg hw]
            exact ih tail ht

/-- C1 witness: a two-record store where the first birthday falls in
the window and the second has already passed this year. -/
theorem getUpcoming_spec_witness :
    [("Jane", "17.06.2024")] =
      upcomingSpec [("Jane", ⟨"Jane", [], some ⟨1990, 6, 15⟩⟩),
        ("Bob", ⟨"Bob", [], some ⟨1990, 6, 8⟩⟩)] ⟨2024, 6, 10⟩ :=
  getUpcoming_spec [("Jane", ⟨"Jane", [], some ⟨1990, 6, 15⟩⟩),
    ("Bob", ⟨"Bob", [], some ⟨1990, 6, 8⟩⟩)] ⟨2024, 6, 10⟩
    [("Jane", "17.06.2024")] (by rfl)

/-- C2: the emitted congratulation date is the candidate plus 2 days
when the candidate is a Saturday (`weekday = 5`), plus 1 day when it is
a Sunday (`weekday = 6`), and the candidate itself otherwise; the shift
depends only on the candidate's weekday.  Concretely, for
`today = 2024-06-10` and birthday `15.06.1990` the record is emitted
with `congratulation_date = 17.06.2024`; and with `today = 2024-06-09`
the same emitted date lies 8 days after today, outside the 7-day
window. -/
theorem weekend_shift_correct :
    (∀ c : Date, c.valid →
      ((c.weekday = 5 → (shiftWeekend c).toOrdinal = c.toOrdinal + 2) ∧
       (c.weekday = 6 → (shiftWeekend c).toOrdinal = c.toOrdinal + 1) ∧
       (c.weekday ≠ 5 → c.weekday ≠ 6 → shiftWeekend c = c))) ∧
    getUpcoming [("John", ⟨"John", [], some ⟨1990, 6, 15⟩⟩)] ⟨2024, 6, 10⟩
      = .ok [("John", "17.06.2024")] ∧
    getUpcoming [("John", ⟨"John", [], some ⟨1990, 6, 15⟩⟩)] ⟨2024, 6, 9⟩
      = .ok [("John", "17.06.2024")] ∧
    diffDays ⟨2024, 6, 17⟩ ⟨2024, 6, 9⟩ = 8 := by
  refine ⟨?_, by rfl, by rfl, by decide⟩
  rintro c ⟨hy1, hy2, hm1, hm2, hd1, hd2⟩
  obtain ⟨b1, b2, b3, b4, b5⟩ := nextDay_bounds c hy1 hm1 hm2 hd1 hd2
  refine ⟨?_, ?_, ?_⟩
  · intro h5
    unfold shiftWeekend
    rw [if_pos h5]
    show (nextDay (nextDay (addDays 0 c))).toOrdinal = _
    unfold addDays
    rw [toOrdinal_nextDay (nextDay c) b1 b2 b3 b5,
      toOrdinal_nextDay c hy1 hm1 hm2 hd2]
  · intro h6
    unfold shiftWeekend
    rw [if_neg (by omega), if_pos h6]
    show (nextDay (addDays 0 c)).toOrdinal = _
    unfold addDays
    rw [toOrdinal_nextDay c hy1 hm1 hm2 hd2]
  · intro h5 h6
    unfold shiftWeekend
    rw [if_neg h5, if_neg h6]

/-- C2 witness: the candidate `2024-06-15` is a Saturday and is shifted
by exactly two days. -/
theorem weekend_shift_correct_witness :
    (shiftWeekend ⟨2024, 6, 15⟩).toOrdinal = (Date.mk 2024 6 15).toOrdinal + 2 :=
  (weekend_shift_correct.1 ⟨2024, 6, 15⟩ (by decide)).1 (by decide)

/-- C3 counterexample: `validate_birthday` accepts `"1.1.2020"` — the
`strptime` day and month sub-patterns also match single digits, so the
unpadded form succeeds instead of failing. -/
theorem birthday_unpadded_accepted :
    mkBirthday "1.1.2020" = .ok ⟨2020, 1, 1⟩ := by rfl

/-- C3 (amended): `validate_birthday` succeeds on every well-formed
zero-padded `DD.MM.YYYY` string denoting a real calendar date, and
fails on `"31.02.2020"` and `"00.01.2020"`; but `"1.1.2020"` (wrong
padding) is accepted rather than rejected, since `strptime` also
matches unpadded day/month digits. -/
theorem birthday_validation :
    (∀ t : Date, t.valid → mkBirthday (fmtDate t) = .ok t) ∧
    mkBirthday "31.02.2020"
      = .error (.valueError "Invalid date format. Use DD.MM.YYYY") ∧
    mkBirthday "00.01.2020"
      = .error (.valueError "Invalid date format. Use DD.MM.YYYY") ∧
    mkBirthday "1.1.2020" = .ok ⟨2020, 1, 1⟩ := by
  refine ⟨?_, by rfl, by rfl, by rfl⟩
  rintro ⟨y, m, d⟩ ⟨hy1, hy2, hm1, hm2, hd1, hd2⟩
  have hd31 : d ≤ 31 := le_trans hd2 (daysInMonth_le y m)
  have hs : strptimeDMY (fmtDate ⟨y, m, d⟩) = some ⟨y, m, d⟩ := by
    have hdata : (fmtDate ⟨y, m, d⟩).data
        = twoDigits d ++ '.' :: (twoDigits m ++ '.' :: fourDigits y) := rfl
    unfold strptimeDMY parseDMY
    rw [hdata, parseDay_twoDigits d hd1 hd31]
    rw [Option.some_bind']
    simp only [parseDot, Option.some_bind']
    rw [parseMonth_twoDigits m hm1 hm2, Option.some_bind']
    simp only [parseDot, Option.some_bind']
    have h4 : fourDigits y = fourDigits y ++ [] := (List.append_nil _).symm
    rw [h4, parseYear_fourDigits y hy2, Option.some_bind']
    simp only [if_pos rfl, if_true, Option.some_bind']
    rw [if_pos (show 1 ≤ y ∧ y ≤ 9999 ∧ 1 ≤ d ∧ d ≤ daysInMonth y m from
      ⟨hy1, hy2, hd1, hd2⟩)]
  unfold mkBirthday
  rw [hs]

/-- C3 witness: the real date `15.06.1990` parses back to itself. -/
theorem birthday_validation_witness :
    mkBirthday (fmtDate ⟨1990, 6, 15⟩) = .ok ⟨1990, 6, 15⟩ :=
  birthday_validation.1 ⟨1990, 6, 15⟩ (by decide)

/-- C4: `validate_phone` (the `Phone` constructor) succeeds on exactly
the strings of 10 decimal digits, returning the string unchanged, and
fails with `ValueError` ("InvalidValue") otherwise. -/
theorem phone_validation_correct (s : String) :
    (mkPhone s = .ok s ↔ s.length = 10 ∧ ∀ c ∈ s.data, c.isDigit = true) ∧
    (¬(s.length = 10 ∧ ∀ c ∈ s.data, c.isDigit = true) →
      mkPhone s = .error (.valueError "The phone should contain 10 digits")) := by
  have hchar : (s.length = 10 ∧ ∀ c ∈ s.data, c.isDigit = true) ↔
      validPhoneStr s = true := by
    rw [string_length_eq_data, validPhoneStr, matchDigits_iff]
  constructor
  · rw [hchar]
    unfold mkPhone
    constructor
    · intro h
      by_contra hv
      rw [if_neg hv] at h
      exact Except.noConfusion h
    · intro h; rw [if_pos h]
  · rw [hchar]
    intro h
    unfold mkPhone
    rw [if_neg h]

/-- C4 witness: `"1234567890"` is accepted and round-trips. -/
theorem phone_validation_correct_witness :
    mkPhone "1234567890" = .ok "1234567890" :=
  (phone_validation_correct "1234567890").1.mpr ⟨by decide, by decide⟩

/-- C6: `edit_phone` with an `old` value absent from the phone list
raises the not-found error and leaves the phone sequence unchanged. -/
theorem edit_phone_notfound (r : Record) (old new : String)
    (h : old ∉ r.phones) :
    r.editPhone old new = (some (.valueError "Phone not found"), r) ∧
    (r.editPhone old new).2.phones = r.phones := by
  have hf : r.findPhone old = none := by
    unfold Record.findPhone
    rw [List.find?_eq_none]
    intro a ha hc
    exact h (by rwa [of_decide_eq_true hc] at ha)
  unfold Record.editPhone
  rw [hf]
  exact ⟨rfl, rfl⟩

/-- C6 witness: editing a phone absent from a concrete record. -/
theorem edit_phone_notfound_witness :
    Record.editPhone ⟨"Jane", ["1234567890"], none⟩ "0987654321" "1111111111"
      = (some (.valueError "Phone not found"), ⟨"Jane", ["1234567890"], none⟩) :=
  (edit_phone_notfound ⟨"Jane", ["1234567890"], none⟩ "0987654321" "1111111111"
    (by decide)).1

/-- C8: `delete` on an absent name raises `KeyError` ("NotFound", a
class distinct from the `ValueError` used by validation) and leaves the
store unchanged; `find` on an absent name returns `none` rather than
raising (it is total with an `Option` result). -/
theorem delete_missing_name (b : Book) (n : String)
    (h : findBook b n = none) :
    deleteRec b n = (some (.keyError "Record not found"), b) ∧
    (∀ m : String, (PyErr.keyError "Record not found") ≠ .valueError m) := by
  unfold deleteRec
  rw [h]
  exact ⟨rfl, fun m hm => PyErr.noConfusion hm⟩

/-- C8 witness: `delete "ghost"` on the empty store. -/
theorem delete_missing_name_witness :
    deleteRec [] "ghost" = (some (.keyError "Record not found"), []) :=
  (delete_missing_name [] "ghost" rfl).1

/-- C7: a record whose birthday is February 29 makes
`get_upcoming_birthdays` raise the date-construction `ValueError` when
the candidate's target year is not a leap year — the record is neither
skipped nor clamped; the whole call fails. -/
theorem feb29_raises_on_nonleap (today : Date) (hv : today.valid)
    (hleap : isLeap today.year = false) (name : String) (ps : List String)
    (y0 : Nat) (_hy0 : isLeap y0 = true) (rest : Book) :
    getUpcoming ((name, ⟨name, ps, some ⟨y0, 2, 29⟩⟩) :: rest) today
      = .error (.valueError "day is out of range for month") := by
  obtain ⟨hy1, hy2, -⟩ := hv
  have hc : candidate today ⟨y0, 2, 29⟩
      = .error (.valueError "day is out of range for month") := by
    unfold candidate Date.replaceYear mkDate
    rw [if_neg (by omega), if_neg (by norm_num)]
    rw [if_pos (by simp [daysInMonth, hleap])]
    rfl
  simp only [getUpcoming, hc]
  rfl

/-- C7 witness: a Feb-29 birthday with `today` in non-leap 2023. -/
theorem feb29_raises_on_nonleap_witness :
    getUpcoming [("Olha", ⟨"Olha", [], some ⟨1992, 2, 29⟩⟩)] ⟨2023, 6, 10⟩
      = .error (.valueError "day is out of range for month") :=
  feb29_raises_on_nonleap ⟨2023, 6, 10⟩ (by decide) (by decide) "Olha" []
    1992 (by decide) []

/-- C10: on an empty or whitespace-only line, `parse_input` does not
raise — the `input_error` decorator converts the tuple-unpacking
`ValueError` into an error string — and the main loop then unpacks that
string's first character `'E'` as the command, printing
`"Invalid command."`. -/
theorem parse_input_empty_line (s : String) (b : Book) (today : Date)
    (h : ∀ c ∈ s.data, c.isWhitespace = true) :
    parseInput s = .errstr ("Error: " ++ unpackErrMsg) ∧
    mainStep s b today = some (b, "Invalid command.") := by
  have hs : pySplit s = [] := pySplitAux_all_ws s.data h
  have hp : parseInput s = .errstr ("Error: " ++ unpackErrMsg) := by
    unfold parseInput
    rw [hs]
  refine ⟨hp, ?_⟩
  unfold mainStep
  rw [hp]
  rfl

/-- C10 witness: the empty input line. -/
theorem parse_input_empty_line_witness :
    parseInput "" = .errstr ("Error: " ++ unpackErrMsg) ∧
    mainStep "" [] ⟨2024, 6, 10⟩ = some ([], "Invalid command.") :=
  parse_input_empty_line "" [] ⟨2024, 6, 10⟩ (by decide)

theorem mkPhone_ok_iff (s p : String) :
    mkPhone s = .ok p ↔ validPhoneStr s = true ∧ p = s := by
  unfold mkPhone
  by_cases h : validPhoneStr s = true
  · rw [if_pos h]
    constructor
    · intro he
      injection he with he
      exact ⟨h, he.symm⟩
    · rintro ⟨-, rfl⟩
      rfl
  · rw [if_neg h]
    constructor
    · intro he
      exact Except.noConfusion he
    · rintro ⟨hv, -⟩
      exact absurd hv h

theorem addPhone_valid (r : Record) (p : String)
    (hp : validPhoneStr p = true) :
    r.addPhone p = (none, { r with phones := r.phones ++ [p] }) := by
  unfold Record.addPhone
  rw [(mkPhone_ok_iff p p).mpr ⟨hp, rfl⟩]

theorem validPhone_ne_empty (p : String) (hp : validPhoneStr p = true) :
    p ≠ "" := by
  intro h
  subst h
  exact absurd hp (by decide)

theorem findBook_dictSet_self (b : Book) (n : String) (r : Record) :
    findBook (dictSet b n r) n = some r := by
  induction b with
  | nil => simp [dictSet, findBook]
  | cons e rest ih =>
    obtain ⟨k, r0⟩ := e
    by_cases hk : k = n
    · simp [dictSet, findBook, hk]
    · simp [dictSet, findBook, hk, ih]

theorem countName_dictSet (b : Book) (n : String) (r : Record) :
    countName (dictSet b n r) n
      = if countName b n = 0 then 1 else countName b n := by
  induction b with
  | nil => simp [dictSet, countName]
  | cons e rest ih =>
    obtain ⟨k, r0⟩ := e
    by_cases hk : k = n
    · subst hk
      simp [dictSet, countName, List.filter]
    · simp only [dictSet, if_neg hk]
      simp only [countName, List.filter_cons] at ih ⊢
      simp only [decide_eq_true_eq]
      rw [if_neg hk, if_neg hk]
      exact ih

theorem countName_eq_zero_of_not_mem (b : Book) (n : String)
    (h : n ∉ b.map Prod.fst) : countName b n = 0 := by
  induction b with
  | nil => rfl
  | cons e rest ih =>
    simp only [List.map_cons, List.mem_cons] at h
    push_neg at h
    simp only [countName, List.filter_cons, decide_eq_true_eq]
    rw [if_neg (fun he => h.1 he.symm)]
    exact ih h.2

theorem countName_le_one (b : Book) (hnd : (b.map Prod.fst).Nodup)
    (n : String) : countName b n ≤ 1 := by
  induction b with
  | nil => simp [countName]
  | cons e rest ih =>
    rw [List.map_cons, List.nodup_cons] at hnd
    simp only [countName, List.filter_cons, decide_eq_true_eq]
    by_cases hk : e.1 = n
    · rw [if_pos hk]
      have h0 : countName rest n = 0 :=
        countName_eq_zero_of_not_mem rest n (hk ▸ hnd.1)
      simp only [countName] at h0
      simp [h0]
    · rw [if_neg hk]
      exact ih hnd.2

theorem addContact_found (b : Book) (name phone : String) (r : Record)
    (hf : findBook b name = some r) (hp : validPhoneStr phone = true) :
    addContact [name, phone] b
      = (dictSet b name { r with phones := r.phones ++ [phone] },
         "Contact updated.") := by
  simp only [addContact]
  rw [hf]
  simp only [if_pos (validPhone_ne_empty phone hp),
    addPhone_valid r phone hp]

theorem addContact_new (b : Book) (name phone : String)
    (hf : findBook b name = none) (hn : name ≠ "")
    (hp : validPhoneStr phone = true) :
    addContact [name, phone] b
      = (dictSet (dictSet b name ⟨name, [], none⟩) name ⟨name, [phone], none⟩,
         "Contact added.") := by
  simp only [addContact]
  rw [hf]
  have hr : mkRecord name = .ok ⟨name, [], none⟩ := by
    unfold mkRecord mkName
    rw [if_neg hn]
    rfl
  rw [hr]
  simp only [if_pos (validPhone_ne_empty phone hp),
    addPhone_valid ⟨name, [], none⟩ phone hp]
  rfl

/-- C5: routing two `add` commands for the same name through the
handler leaves exactly one record under that name, whose phone list
contains both phones — `add_record` overwrites by name and the handler
updates the existing record in place. -/
theorem add_handler_idempotent (book : Book) (name p1 p2 : String)
    (hn : name ≠ "") (hp1 : validPhoneStr p1 = true)
    (hp2 : validPhoneStr p2 = true) (hnd : (book.map Prod.fst).Nodup) :
    countName (addContact [name, p2] (addContact [name, p1] book).1).1 name
      = 1 ∧
    ∃ r, findBook (addContact [name, p2] (addContact [name, p1] book).1).1
        name = some r ∧ p1 ∈ r.phones ∧ p2 ∈ r.phones := by
  have hc0 : countName book name ≤ 1 := countName_le_one book hnd name
  cases hfind : findBook book name with
  | some r =>
    have hf1 : findBook (addContact [name, p1] book).1 name
        = some { r with phones := r.phones ++ [p1] } := by
      rw [addContact_found book name p1 r hfind hp1]
      exact findBook_dictSet_self book name _
    rw [addContact_found ((addContact [name, p1] book).1) name p2
      { r with phones := r.phones ++ [p1] } hf1 hp2,
      addContact_found book name p1 r hfind hp1]
    constructor
    · show countName (dictSet (dictSet book name _) name _) name = 1
      rw [countName_dictSet, countName_dictSet]
      split_ifs <;> omega
    · exact ⟨_, findBook_dictSet_self _ _ _, by simp, by simp⟩
  | none =>
    have hf1 : findBook (addContact [name, p1] book).1 name
        = some ⟨name, [p1], none⟩ := by
      rw [addContact_new book name p1 hfind hn hp1]
      exact findBook_dictSet_self _ name _
    rw [addContact_found ((addContact [name, p1] book).1) name p2
      ⟨name, [p1], none⟩ hf1 hp2,
      addContact_new book name p1 hfind hn hp1]
    constructor
    · show countName (dictSet (dictSet (dictSet book name _) name _) name _)
        name = 1
      rw [countName_dictSet, countName_dictSet, countName_dictSet]
      split_ifs <;> omega
    · exact ⟨_, findBook_dictSet_self _ _ _, by simp, by simp⟩

/-- C5 witness: adding `"Jane"` twice with two different valid phones
on the empty store. -/
theorem add_handler_idempotent_witness :
    countName (addContact ["Jane", "0987654321"]
      (addContact ["Jane", "1234567890"] []).1).1 "Jane" = 1 :=
  (add_handler_idempotent [] "Jane" "1234567890" "0987654321" (by decide)
    (by decide) (by decide) List.nodup_nil).1

theorem phonesValid_addPhone (r : Record) (s : String)
    (h : PhonesValid r) : PhonesValid (r.addPhone s).2 := by
  unfold Record.addPhone
  cases hm : mkPhone s with
  | error e => exact h
  | ok p =>
    obtain ⟨hv, rfl⟩ := (mkPhone_ok_iff s p).mp hm
    intro q hq
    rcases List.mem_append.mp hq with hq | hq
    · exact h q hq
    · rw [List.mem_singleton.mp hq]
      exact hv

theorem phonesValid_editPhone (r : Record) (old new : String)
    (h : PhonesValid r) : PhonesValid (r.editPhone old new).2 := by
  unfold Record.editPhone
  cases hfp : r.findPhone old with
  | none => exact h
  | some q0 =>
    cases hm : mkPhone new with
    | error e => exact h
    | ok p =>
      obtain ⟨hv, rfl⟩ := (mkPhone_ok_iff new p).mp hm
      intro q hq
      rcases List.mem_or_eq_of_mem_set hq with hq | rfl
      · exact h q hq
      · exact hv

theorem phonesValid_removePhone (r : Record) (s : String)
    (h : PhonesValid r) : PhonesValid (r.removePhone s).2 := by
  unfold Record.removePhone
  cases hfp : r.findPhone s with
  | none => exact h
  | some q0 =>
    intro q hq
    exact h q ((List.eraseP_sublist _).mem hq)

theorem phonesValid_addBirthday (r : Record) (s : String)
    (h : PhonesValid r) : PhonesValid (r.addBirthday s).2 := by
  unfold Record.addBirthday
  cases mkBirthday s with
  | error e => exact h
  | ok d => exact h

theorem phonesValid_mkRecord (name : String) (r : Record)
    (h : mkRecord name = .ok r) : PhonesValid r := by
  unfold mkRecord mkName at h
  by_cases hn : name = ""
  · rw [if_pos hn] at h
    exact Except.noConfusion h
  · rw [if_neg hn] at h
    injection h with h
    rw [← h]
    intro q hq
    cases hq

theorem bookValid_dictSet (b : Book) (n : String) (r : Record)
    (hb : BookValid b) (hr : PhonesValid r) : BookValid (dictSet b n r) := by
  induction b with
  | nil =>
    intro e he
    rw [List.mem_singleton.mp he]
    exact hr
  | cons e0 rest ih =>
    obtain ⟨k, r0⟩ := e0
    have hb0 : PhonesValid r0 := hb (k, r0) (List.mem_cons_self _ _)
    have hbr : BookValid rest := fun e he => hb e (List.mem_cons_of_mem _ he)
    by_cases hk : k = n
    · simp only [dictSet, if_pos hk]
      intro e he
      rcases List.mem_cons.mp he with rfl | he
      · exact hr
      · exact hbr e he
    · simp only [dictSet, if_neg hk]
      intro e he
      rcases List.mem_cons.mp he with rfl | he
      · exact hb0
      · exact ih hbr e he

theorem bookValid_find (b : Book) (n : String) (r : Record)
    (hb : BookValid b) (hf : findBook b n = some r) : PhonesValid r := by
  induction b with
  | nil => exact Option.noConfusion hf
  | cons e0 rest ih =>
    obtain ⟨k, r0⟩ := e0
    simp only [findBook] at hf
    by_cases hk : k = n
    · rw [if_pos hk] at hf
      injection hf with hf
      rw [← hf]
      exact hb (k, r0) (List.mem_cons_self _ _)
    · rw [if_neg hk] at hf
      exact ih (fun e he => hb e (List.mem_cons_of_mem _ he)) hf

theorem bookValid_addContact (args : List String) (b : Book)
    (hb : BookValid b) : BookValid (addContact args b).1 := by
  unfold addContact
  split
  · next name phone _ =>
    split
    · next r hf =>
      split
      · split
        · next r2 hap =>
          have h2 : PhonesValid r2 := by
            have h3 := phonesValid_addPhone r phone (bookValid_find b name r hb hf)
            rw [hap] at h3
            exact h3
          exact bookValid_dictSet b name r2 hb h2
        · next e snd hap => exact hb
      · exact hb
    · next hf =>
      split
      · next e hr => exact hb
      · next r hr =>
        have hrv : PhonesValid r := phonesValid_mkRecord name r hr
        have hb1 : BookValid (addRecord b r) :=
          bookValid_dictSet b r.name r hb hrv
        split
        · split
          · next r2 hap =>
            have h2 : PhonesValid r2 := by
              have h3 := phonesValid_addPhone r phone hrv
              rw [hap] at h3
              exact h3
            exact bookValid_dictSet (addRecord b r) name r2 hb1 h2
          · next e snd hap => exact hb1
        · exact hb1
  · exact hb

theorem bookValid_changeContact (args : List String) (b : Book)
    (hb : BookValid b) : BookValid (changeContact args b).1 := by
  unfold changeContact
  split
  · next name old new _ =>
    split
    · exact hb
    · next r hf =>
      split
      · next r2 hep =>
        have h2 : PhonesValid r2 := by
          have h3 := phonesValid_editPhone r old new (bookValid_find b name r hb hf)
          rw [hep] at h3
          exact h3
        exact bookValid_dictSet b name r2 hb h2
      · next e snd hep => exact hb
  · exact hb

theorem bookValid_addBirthdayH (args : List String) (b : Book)
    (hb : BookValid b) : BookValid (addBirthdayH args b).1 := by
  unfold addBirthdayH
  split
  · next name bday _ =>
    split
    · exact hb
    · next r hf =>
      split
      · next r2 hab =>
        have h2 : PhonesValid r2 := by
          have h3 := phonesValid_addBirthday r bday (bookValid_find b name r hb hf)
          rw [hab] at h3
          exact h3
        exact bookValid_dictSet b name r2 hb h2
      · next e snd hab => exact hb
  · exact hb

theorem bookValid_dictDel (b : Book) (n : String) (hb : BookValid b) :
    BookValid (dictDel b n) := by
  induction b with
  | nil => exact hb
  | cons e0 rest ih =>
    obtain ⟨k, r0⟩ := e0
    have hbr : BookValid rest := fun e he => hb e (List.mem_cons_of_mem _ he)
    simp only [dictDel]
    by_cases hk : k = n
    · rw [if_pos hk]
      exact hbr
    · rw [if_neg hk]
      intro e he
      rcases List.mem_cons.mp he with rfl | he
      · exact hb (k, r0) (List.mem_cons_self _ _)
      · exact ih hbr e he

theorem bookValid_deleteRec (b : Book) (n : String) (hb : BookValid b) :
    BookValid (deleteRec b n).2 := by
  unfold deleteRec
  cases findBook b n with
  | none => exact hb
  | some r => exact bookValid_dictDel b n hb

theorem bookValid_reachable (b : Book) (h : ReachableBook b) :
    BookValid b := by
  induction h with
  | empty => intro e he; cases he
  | stepAdd args b _ ih => exact bookValid_addContact args b ih
  | stepChange args b _ ih => exact bookValid_changeContact args b ih
  | stepAddBirthday args b _ ih => exact bookValid_addBirthdayH args b ih
  | stepDelete n b _ ih => exact bookValid_deleteRec b n ih
  | stepAddPhone n s b r _ hf ih =>
    have h2 := phonesValid_addPhone r s (bookValid_find b n r ih hf)
    exact bookValid_dictSet b n _ ih h2
  | stepEditPhone n old new b r _ hf ih =>
    have h2 := phonesValid_editPhone r old new (bookValid_find b n r ih hf)
    exact bookValid_dictSet b n _ ih h2
  | stepRemovePhone n s b r _ hf ih =>
    have h2 := phonesValid_removePhone r s (bookValid_find b n r ih hf)
    exact bookValid_dictSet b n _ ih h2

/-- C9: in every store state reachable through the program's
operations, every phone stored in every record is a string of exactly
10 decimal digits — established at `Record` construction and preserved
by `add_phone`, `edit_phone` and `remove_phone`, which reject invalid
input before changing state. -/
theorem record_phone_invariant (b : Book) (h : ReachableBook b) :
    ∀ e ∈ b, ∀ p ∈ e.2.phones, p.length = 10 ∧ ∀ c ∈ p.data, c.isDigit = true := by
  intro e he p hp
  have hv : validPhoneStr p = true := bookValid_reachable b h e he p hp
  rw [string_length_eq_data]
  exact (matchDigits_iff p.data 10).mp hv

/-- C9 witness: the store after one `add` command is reachable, and
its stored phone has 10 digits. -/
theorem record_phone_invariant_witness :
    ("1234567890" : String).length = 10 ∧
      ∀ c ∈ ("1234567890" : String).data, c.isDigit = true :=
  record_phone_invariant (addContact ["Jane", "1234567890"] []).1
    (.stepAdd ["Jane", "1234567890"] [] .empty)
    ("Jane", ⟨"Jane", ["1234567890"], none⟩) (by decide) "1234567890"
    (by decide)

end AddressBookPy
